import Mathlib

/-!
# Kernel memory map discovery and allocator bootstrap (`kernel.c`)

A shallow embedding of `get_kernel_memory_map` and `kmain` from
`NEW KERNEL/Bitmap Text/src/kernel.c`.

* `uint32` values are natural numbers; every C addition and subtraction on them is
  reduced modulo `2 ^ 32` (`add32`, `sub32`).
* Physical memory is a function from a 32-bit address to the `MULTIBOOT_MEMORY_MAP`
  record read through a pointer cast at that address.
* Constants that live in headers outside the source tree (`multiboot.h`, `pmm.h`,
  `console.h`) are collected in `Headers` and taken as a parameter.
* The `for` loop of `get_kernel_memory_map` and the `while (1)` loop of `kmain` take a
  fuel argument; a run that is still inside a loop when the fuel is spent has no return
  value (`ret = none`, `returned = false`).
-/

namespace Kernel

/-! ## Machine arithmetic -/

/-- C `uint32` addition. -/
def add32 (a b : Nat) : Nat := (a + b) % 4294967296

/-- C `uint32` subtraction. -/
def sub32 (a b : Nat) : Nat := (a + (4294967296 - b % 4294967296)) % 4294967296

/-! ## Data model -/

/-- Constants declared in headers that are not part of the source tree. -/
structure Headers where
  /-- The value of `sizeof(MULTIBOOT_MEMORY_MAP)` (multiboot.h). -/
  sizeof_MULTIBOOT_MEMORY_MAP : Nat
  /-- The type tag of usable RAM (multiboot.h). -/
  MULTIBOOT_MEMORY_AVAILABLE : Nat
  /-- The magic value handed over by the boot loader (multiboot.h). -/
  MULTIBOOT_BOOTLOADER_MAGIC : Nat
  /-- The block size of the physical memory manager (pmm.h). -/
  PMM_BLOCK_SIZE : Nat
  /-- The number of console pages (console.h). -/
  MAXIMUM_PAGES : Nat
  /-- Scan code of the up arrow key (keyboard.h). -/
  SCAN_CODE_KEY_UP : Nat
  /-- Scan code of the down arrow key (keyboard.h). -/
  SCAN_CODE_KEY_DOWN : Nat

/-- The header values of the Multiboot 1 layout this kernel is built against: six `uint32`
fields per descriptor entry, type tag 1 for usable RAM, 4 KiB blocks. -/
def multibootHeaders : Headers where
  sizeof_MULTIBOOT_MEMORY_MAP := 24
  MULTIBOOT_MEMORY_AVAILABLE := 1
  MULTIBOOT_BOOTLOADER_MAGIC := 0x2BADB002
  PMM_BLOCK_SIZE := 4096
  MAXIMUM_PAGES := 16
  SCAN_CODE_KEY_UP := 0x48
  SCAN_CODE_KEY_DOWN := 0x50

/-- One entry of the boot loader's memory descriptor table (`MULTIBOOT_MEMORY_MAP`). The
source reads `type`, `addr_low` and `len_low`; `size` is the entry's self-declared size. -/
structure MULTIBOOT_MEMORY_MAP where
  size : Nat
  addr_low : Nat
  addr_high : Nat
  len_low : Nat
  len_high : Nat
  type : Nat
deriving DecidableEq

/-- The fields of `MULTIBOOT_INFO` that the source reads. -/
structure MULTIBOOT_INFO where
  mem_low : Nat
  mem_high : Nat
  mmap_length : Nat
  mmap_addr : Nat
deriving DecidableEq

/-- Physical memory, as seen through a `(MULTIBOOT_MEMORY_MAP *)` cast of a 32-bit address. -/
abbrev Memory := Nat → MULTIBOOT_MEMORY_MAP

/-- The values `(uint32)&symbol` of the linker boundary symbols. -/
structure LinkerSymbols where
  __kernel_section_start : Nat
  __kernel_section_end : Nat
  __kernel_text_section_start : Nat
  __kernel_text_section_end : Nat
  __kernel_data_section_start : Nat
  __kernel_data_section_end : Nat
  __kernel_rodata_section_start : Nat
  __kernel_rodata_section_end : Nat
  __kernel_bss_section_start : Nat
  __kernel_bss_section_end : Nat
deriving DecidableEq

/-- The `kernel` member of `KERNEL_MEMORY_MAP`. -/
structure KernelSections where
  k_start_addr : Nat
  k_end_addr : Nat
  k_len : Nat
  text_start_addr : Nat
  text_end_addr : Nat
  text_len : Nat
  data_start_addr : Nat
  data_end_addr : Nat
  data_len : Nat
  rodata_start_addr : Nat
  rodata_end_addr : Nat
  rodata_len : Nat
  bss_start_addr : Nat
  bss_end_addr : Nat
  bss_len : Nat
deriving DecidableEq

/-- The `system` member of `KERNEL_MEMORY_MAP`. -/
structure SystemMemory where
  total_memory : Nat
deriving DecidableEq

/-- The `available` member of `KERNEL_MEMORY_MAP`. -/
structure AvailableMemory where
  start_addr : Nat
  end_addr : Nat
  size : Nat
deriving DecidableEq

/-- The aggregate record built by `get_kernel_memory_map`. -/
structure KERNEL_MEMORY_MAP where
  kernel : KernelSections
  system : SystemMemory
  available : AvailableMemory
deriving DecidableEq

/-- The map after `memset(&g_kmap, 0, sizeof(KERNEL_MEMORY_MAP))`. -/
def zeroMap : KERNEL_MEMORY_MAP :=
  ⟨⟨0, 0, 0, 0, 0, 0, 0, 0, 0, 0, 0, 0, 0, 0, 0⟩, ⟨0⟩, ⟨0, 0, 0⟩⟩

/-! ## `get_kernel_memory_map` -/

/-- State of a run of the descriptor scan: the offsets `i` at which the loop body ran (in
order), the return value if the function has returned, and the map as written so far. -/
structure ScanResult where
  examined : List Nat
  ret : Option Int
  kmap : KERNEL_MEMORY_MAP
deriving DecidableEq

/-- Lines 42-56: the `for` loop over the descriptor table, entered with loop variable `i`,
followed by the final `return -1`. -/
def scanLoop (H : Headers) (mem : Memory) (mboot_info : MULTIBOOT_INFO) :
    Nat → Nat → KERNEL_MEMORY_MAP → ScanResult
  | 0, _, kmap => ⟨[], none, kmap⟩
  | fuel + 1, i, kmap =>
    if i < mboot_info.mmap_length then
      let mmap := mem (add32 mboot_info.mmap_addr i)
      if mmap.type ≠ H.MULTIBOOT_MEMORY_AVAILABLE then
        let r := scanLoop H mem mboot_info fuel (add32 i H.sizeof_MULTIBOOT_MEMORY_MAP) kmap
        { r with examined := i :: r.examined }
      else if mmap.addr_low = kmap.kernel.text_start_addr then
        let kmap1 := { kmap with available.start_addr := add32 kmap.kernel.k_end_addr (1024 * 1024) }
        let kmap2 := { kmap1 with available.end_addr := add32 mmap.addr_low mmap.len_low }
        let kmap3 := { kmap2 with
          available.size := sub32 kmap2.available.end_addr kmap2.available.start_addr }
        ⟨[i], some 0, kmap3⟩
      else
        let r := scanLoop H mem mboot_info fuel (add32 i H.sizeof_MULTIBOOT_MEMORY_MAP) kmap
        { r with examined := i :: r.examined }
    else
      ⟨[], some (-1), kmap⟩

/-- Lines 20-40: the section records and the memory total, written before the scan. -/
def fillSections (L : LinkerSymbols) (mboot_info : MULTIBOOT_INFO)
    (kmap : KERNEL_MEMORY_MAP) : KERNEL_MEMORY_MAP :=
  { kmap with
    kernel :=
      { k_start_addr := L.__kernel_section_start
        k_end_addr := L.__kernel_section_end
        k_len := sub32 L.__kernel_section_end L.__kernel_section_start
        text_start_addr := L.__kernel_text_section_start
        text_end_addr := L.__kernel_text_section_end
        text_len := sub32 L.__kernel_text_section_end L.__kernel_text_section_start
        data_start_addr := L.__kernel_data_section_start
        data_end_addr := L.__kernel_data_section_end
        data_len := sub32 L.__kernel_data_section_end L.__kernel_data_section_start
        rodata_start_addr := L.__kernel_rodata_section_start
        rodata_end_addr := L.__kernel_rodata_section_end
        rodata_len := sub32 L.__kernel_rodata_section_end L.__kernel_rodata_section_start
        bss_start_addr := L.__kernel_bss_section_start
        bss_end_addr := L.__kernel_bss_section_end
        bss_len := sub32 L.__kernel_bss_section_end L.__kernel_bss_section_start }
    system := { total_memory := add32 mboot_info.mem_low mboot_info.mem_high } }

/-- Result of a call of `get_kernel_memory_map`: the scan's ghost trace, the return value
(`none` while the scan is still running), and the pointee of `kmap` (`none` for `NULL`). -/
structure CallResult where
  examined : List Nat
  ret : Option Int
  kmap : Option KERNEL_MEMORY_MAP
deriving DecidableEq

/-- `int get_kernel_memory_map(KERNEL_MEMORY_MAP *kmap, MULTIBOOT_INFO *mboot_info)`.
The argument `kmap = none` is the `NULL` pointer. -/
def get_kernel_memory_map (H : Headers) (L : LinkerSymbols) (mem : Memory) (fuel : Nat)
    (kmap : Option KERNEL_MEMORY_MAP) (mboot_info : MULTIBOOT_INFO) : CallResult :=
  match kmap with
  | none => ⟨[], some (-1), none⟩
  | some k =>
    let r := scanLoop H mem mboot_info fuel 0 (fillSections L mboot_info k)
    ⟨r.examined, r.ret, some r.kmap⟩

/-! ## `kmain` -/

/-- Console colours passed to `console_init` (console.h). -/
inductive ConsoleColor where
  | COLOR_WHITE
  | COLOR_BLACK
deriving DecidableEq

/-- Scroll directions passed to `console_scroll` (console.h). -/
inductive ScrollDirection where
  | SCROLL_UP
  | SCROLL_DOWN
deriving DecidableEq

/-- A pixel colour, the argument triple of `VBE_RGB(r, g, b)` (vesa.h). -/
abbrev VBE_RGB := Nat × Nat × Nat

/-- The observable steps of `kmain`: one constructor per function it calls, with the
argument values of the call. `memset_g_kmap` is the `memset(&g_kmap, 0, ...)` of line 90. -/
inductive Event where
  | gdt_init
  | idt_init
  | console_init (fore back : ConsoleColor)
  | keyboard_init
  | memset_g_kmap
  | get_kernel_memory_map
  | printf (fmt : String)
  | pmm_init (bitmap total_memory_size : Nat)
  | pmm_init_region (base region_size : Nat)
  | pmm_alloc_blocks (size : Nat)
  | pmm_next_free_frame (size : Nat)
  | kheap_init (start_addr end_addr : Nat)
  | vesa_init (width height bpp : Nat)
  | console_scroll (direction : ScrollDirection)
  | kb_get_scancode
  | bitmap_draw_char (ch : Nat) (x y : Int) (color : VBE_RGB)
  | bitmap_draw_string (str : String) (x y : Int) (color : VBE_RGB)
  | bitmap_draw_string_upper (str : String) (x y : Int) (color : VBE_RGB)
  | pmm_free_blocks (p size : Nat)
  | pmm_deinit_region (base region_size : Nat)
deriving DecidableEq

/-- The values the external collaborators hand back to `kmain`. -/
structure Collaborators where
  /-- The pointer returned by `pmm_alloc_blocks(256)`. -/
  pmm_alloc_blocks : Nat
  /-- The value returned by `pmm_next_free_frame(1)`. -/
  pmm_next_free_frame : Int
  /-- The value returned by `vesa_init(800, 600, 32)`. -/
  vesa_init : Int
  /-- The scan code returned by the `n`-th call of `kb_get_scancode()`. -/
  kb_get_scancode : Nat → Nat

/-- Byte-wise arithmetic on a 32-bit `void *`. -/
def ptrAdd (p : Nat) (offset : Int) : Nat := (((p : Int) + offset) % 4294967296).toNat

/-- Lines 114-121: the `while (1)` keyboard loop; `n` counts the scan codes read so far. -/
def scrollLoop (H : Headers) (env : Collaborators) : Nat → Nat → List Event
  | 0, _ => []
  | fuel + 1, n =>
    let c := env.kb_get_scancode n
    [Event.kb_get_scancode]
      ++ (if c = H.SCAN_CODE_KEY_UP then [Event.console_scroll .SCROLL_UP] else [])
      ++ (if c = H.SCAN_CODE_KEY_DOWN then [Event.console_scroll .SCROLL_DOWN] else [])
      ++ scrollLoop H env fuel (n + 1)

/-- Lines 124-131: the character table loop, with `remaining = 127 - i` iterations to go. -/
def drawChars : Nat → Nat → Int → Int → List Event
  | 0, _, _, _ => []
  | remaining + 1, i, x, y =>
    Event.bitmap_draw_char i x y (255, 255, 255) ::
      (if x + 16 > 700 then drawChars remaining (i + 1) 10 (y + 27)
       else drawChars remaining (i + 1) (x + 16) y)

/-- Lines 123-141: the `else` branch of the demo stage. -/
def drawDemo : List Event :=
  drawChars 127 0 10 20 ++
    [ Event.bitmap_draw_string "The quick brown fox jumps over the lazy dog." 20 200 (255, 255, 0),
      Event.bitmap_draw_string_upper "In quantum mechanics, " 20 300 (0, 255, 255),
      Event.bitmap_draw_string "Schrodinger's cat is a thought experiment that " 20 318 (0, 255, 255),
      Event.bitmap_draw_string "illustrates a paradox of quantum superposition. " 20 336 (0, 255, 255),
      Event.bitmap_draw_string "In the thought experiment," 20 354 (0, 255, 255),
      Event.bitmap_draw_string "a hypothetical cat may be considered simultaneously " 20 372 (0, 255, 255),
      Event.bitmap_draw_string "both alive and dead as a result of its fate " 20 390 (0, 255, 255),
      Event.bitmap_draw_string "being linked to a random subatomic event " 20 408 (0, 255, 255),
      Event.bitmap_draw_string "that may or may not occur. " 20 428 (0, 255, 255) ]

/-- Outcome of a run of `kmain`: the calls made, the final value of the global `g_kmap`,
and whether `kmain` has returned. -/
structure KmainResult where
  events : List Event
  g_kmap : KERNEL_MEMORY_MAP
  returned : Bool
deriving DecidableEq

/-- Lines 82-87: the unconditional initialisation. -/
def bootInit : List Event :=
  [Event.gdt_init, Event.idt_init, Event.console_init .COLOR_WHITE .COLOR_BLACK,
    Event.keyboard_init]

/-- `void kmain(unsigned long magic, unsigned long addr)`. `mboot_info` is the structure
at `addr`, `g_kmap` the value of the global on entry. -/
def kmain (H : Headers) (L : LinkerSymbols) (mem : Memory) (env : Collaborators) (fuel : Nat)
    (magic : Nat) (mboot_info : MULTIBOOT_INFO) (g_kmap : KERNEL_MEMORY_MAP) : KmainResult :=
  if magic = H.MULTIBOOT_BOOTLOADER_MAGIC then
    let r := get_kernel_memory_map H L mem fuel (some zeroMap) mboot_info
    -- `&g_kmap` is never `NULL`, so the pointee is always present
    let g := r.kmap.getD zeroMap
    let pre := bootInit ++ [Event.memset_g_kmap, Event.get_kernel_memory_map]
    match r.ret with
    | none => ⟨pre, g, false⟩
    | some code =>
      if code < 0 then
        ⟨pre ++ [Event.printf "error: failed to get kernel memory map\n"], g, true⟩
      else
        let start := env.pmm_alloc_blocks
        let end_ := ptrAdd start (env.pmm_next_free_frame * H.PMM_BLOCK_SIZE)
        let setup := pre ++
          [ Event.pmm_init g.available.start_addr g.available.size,
            Event.pmm_init_region g.available.start_addr (H.PMM_BLOCK_SIZE * 256),
            Event.pmm_alloc_blocks 256,
            Event.pmm_next_free_frame 1,
            Event.kheap_init start end_,
            Event.vesa_init 800 600 32 ]
        let done :=
          [ Event.pmm_free_blocks start 256,
            Event.pmm_deinit_region g.available.start_addr (H.PMM_BLOCK_SIZE * 256) ]
        let ret := env.vesa_init
        if ret < 0 then
          ⟨setup ++ [Event.printf "failed to init vesa graphics\n"] ++ done, g, true⟩
        else if ret = 1 then
          ⟨setup ++ List.replicate H.MAXIMUM_PAGES (Event.console_scroll .SCROLL_UP)
            ++ scrollLoop H env fuel 0, g, false⟩
        else
          ⟨setup ++ drawDemo ++ done, g, true⟩
  else
    ⟨bootInit ++ [Event.printf "error: invalid multiboot magic number\n"], g_kmap, true⟩

/-! ## Vocabulary of the specification -/

/-- The per-entry stride of the walk. -/
abbrev stride (H : Headers) : Nat := H.sizeof_MULTIBOOT_MEMORY_MAP

/-- The `k`-th entry of the descriptor table in table order: the record at byte offset
`k * sizeof(MULTIBOOT_MEMORY_MAP)` from `mmap_addr`. -/
def entryAt (H : Headers) (mem : Memory) (mboot_info : MULTIBOOT_INFO) (k : Nat) :
    MULTIBOOT_MEMORY_MAP :=
  mem (add32 mboot_info.mmap_addr (k * stride H))

/-- An entry of type "available" whose base equals `loadAddr`. -/
def IsMatch (H : Headers) (loadAddr : Nat) (e : MULTIBOOT_MEMORY_MAP) : Prop :=
  e.type = H.MULTIBOOT_MEMORY_AVAILABLE ∧ e.addr_low = loadAddr

instance instDecidableIsMatch (H : Headers) (loadAddr : Nat) (e : MULTIBOOT_MEMORY_MAP) :
    Decidable (IsMatch H loadAddr e) := by
  unfold IsMatch; infer_instance

/-- Number of entries of a table of `mmap_length` bytes: `mmap_length / stride`, rounded up. -/
def entryCount (H : Headers) (mboot_info : MULTIBOOT_INFO) : Nat :=
  (mboot_info.mmap_length + stride H - 1) / stride H

/-- A well-formed descriptor table: entries have positive size and the table's last entry
ends inside the 32-bit offset range. -/
def WellFormedTable (H : Headers) (mboot_info : MULTIBOOT_INFO) : Prop :=
  0 < stride H ∧ entryCount H mboot_info * stride H < 4294967296

instance instDecidableWellFormedTable (H : Headers) (mboot_info : MULTIBOOT_INFO) :
    Decidable (WellFormedTable H mboot_info) := by
  unfold WellFormedTable; infer_instance

/-- The offsets `i, i + s, ..., i + (n - 1) * s`. -/
def offsetsFrom (s i n : Nat) : List Nat := (List.range n).map (fun j => i + j * s)

/-- The map after lines 48-51 ran for entry `e`. -/
def withAvailable (kmap : KERNEL_MEMORY_MAP) (e : MULTIBOOT_MEMORY_MAP) : KERNEL_MEMORY_MAP :=
  { kmap with
    available :=
      { start_addr := add32 kmap.kernel.k_end_addr (1024 * 1024)
        end_addr := add32 e.addr_low e.len_low
        size := sub32 (add32 e.addr_low e.len_low) (add32 kmap.kernel.k_end_addr (1024 * 1024)) } }

/-- The allocator and heap calls among the events of `kmain`. -/
def isAllocatorCall : Event → Bool
  | .pmm_init _ _ => true
  | .pmm_init_region _ _ => true
  | .pmm_alloc_blocks _ => true
  | .pmm_next_free_frame _ => true
  | .kheap_init _ _ => true
  | .pmm_free_blocks _ _ => true
  | .pmm_deinit_region _ _ => true
  | _ => false

/-- A section record `{start_addr, end_addr, length}` filled from the boundary symbols
`symStart` and `symEnd`: the two addresses are copied, the length is their `uint32`
difference, which is the true byte count when the end is not below the start. -/
def SectionRecordOf (start_addr end_addr length symStart symEnd : Nat) : Prop :=
  start_addr = symStart ∧ end_addr = symEnd ∧ length = sub32 end_addr start_addr ∧
    (start_addr ≤ end_addr → end_addr < 4294967296 → length = end_addr - start_addr)

/-! ## Concrete boot scenarios -/

/-- Linker boundaries of a kernel loaded at 1 MiB that ends at `0x108000`. -/
def symA : LinkerSymbols :=
  { __kernel_section_start := 0x100000
    __kernel_section_end := 0x108000
    __kernel_text_section_start := 0x100000
    __kernel_text_section_end := 0x104000
    __kernel_data_section_start := 0x104000
    __kernel_data_section_end := 0x106000
    __kernel_rodata_section_start := 0x106000
    __kernel_rodata_section_end := 0x107000
    __kernel_bss_section_start := 0x107000
    __kernel_bss_section_end := 0x108000 }

/-- Scenario A: a table at `0x9000` with low memory, a reserved hole, the 30 MiB region
`{base = 0x100000, length = 0x1E00000}` and a reserved region at the top. -/
def memA : Memory := fun a =>
  if a = 0x9000 then ⟨20, 0, 0, 0x9FC00, 0, 1⟩
  else if a = 0x9018 then ⟨20, 0x9FC00, 0, 0x60400, 0, 2⟩
  else if a = 0x9030 then ⟨20, 0x100000, 0, 0x1E00000, 0, 1⟩
  else if a = 0x9048 then ⟨20, 0xFFFC0000, 0, 0x40000, 0, 2⟩
  else ⟨0, 0, 0, 0, 0, 0⟩

/-- Boot information of scenario A: four entries of 24 bytes at `0x9000`. -/
def mbiA : MULTIBOOT_INFO :=
  { mem_low := 640, mem_high := 30720, mmap_length := 96, mmap_addr := 0x9000 }

/-- Scenario C: usable memory exists at 0 and at 2 MiB, and the region at the load address
`0x100000` is reported as reserved. -/
def memC : Memory := fun a =>
  if a = 0x9000 then ⟨20, 0, 0, 0x9FC00, 0, 1⟩
  else if a = 0x9018 then ⟨20, 0x100000, 0, 0x100000, 0, 2⟩
  else if a = 0x9030 then ⟨20, 0x200000, 0, 0x1D00000, 0, 1⟩
  else ⟨0, 0, 0, 0, 0, 0⟩

/-- Boot information of scenario C: three entries of 24 bytes at `0x9000`. -/
def mbiC : MULTIBOOT_INFO :=
  { mem_low := 640, mem_high := 30720, mmap_length := 72, mmap_addr := 0x9000 }

/-- A table whose only entry is the 4 KiB available region at the load address, which ends
below the kernel end plus headroom. -/
def memShort : Memory := fun a =>
  if a = 0x9000 then ⟨20, 0x100000, 0, 0x1000, 0, 1⟩ else ⟨0, 0, 0, 0, 0, 0⟩

/-- Boot information for `memShort`: one entry of 24 bytes at `0x9000`. -/
def mbiShort : MULTIBOOT_INFO :=
  { mem_low := 640, mem_high := 1024, mmap_length := 24, mmap_addr := 0x9000 }

/-- The walk as the specification words it: start at offset 0 and move from each entry to
the next by that entry's own declared `size`, until `mmap_length` is exhausted. -/
def declaredSizeWalk (mem : Memory) (mboot_info : MULTIBOOT_INFO) : Nat → Nat → List Nat
  | 0, _ => []
  | fuel + 1, off =>
    if off < mboot_info.mmap_length then
      off :: declaredSizeWalk mem mboot_info fuel
        (off + (mem (add32 mboot_info.mmap_addr off)).size)
    else []

/-- A table of two entries at `0x9000` that each declare 40 bytes: low memory at `0x9000`,
then the 30 MiB region at the load address at `0x9028`; the bytes after the six fields of
each entry are zero. The records at `0x9018` and `0x9030` are what a read of six `uint32`
fields at these addresses finds in those same bytes. -/
def memVar : Memory := fun a =>
  if a = 0x9000 then ⟨40, 0, 0, 0x9FC00, 0, 1⟩
  else if a = 0x9018 then ⟨0, 0, 0, 0, 40, 0x100000⟩
  else if a = 0x9028 then ⟨40, 0x100000, 0, 0x1E00000, 0, 1⟩
  else if a = 0x9030 then ⟨0, 0x1E00000, 0, 1, 0, 0⟩
  else ⟨0, 0, 0, 0, 0, 0⟩

/-- Boot information for `memVar`: 80 bytes at `0x9000`. -/
def mbiVar : MULTIBOOT_INFO :=
  { mem_low := 640, mem_high := 30720, mmap_length := 80, mmap_addr := 0x9000 }

/-- A memory in which every 32-bit word reads 2, so that every descriptor read yields a
record of type 2 (reserved). -/
def memReserved : Memory := fun _ => ⟨2, 2, 2, 2, 2, 2⟩

/-- Boot information whose `mmap_length` is the largest `uint32`. -/
def mbiWrap : MULTIBOOT_INFO :=
  { mem_low := 640, mem_high := 30720, mmap_length := 0xFFFFFFFF, mmap_addr := 0x9000 }

/-- Linker boundaries whose image starts one page below its text section. -/
def symB : LinkerSymbols :=
  { symA with __kernel_section_start := 0xFF000 }

/-- A table at `0x9000` whose only available entry is based at `0xFF000`. -/
def memB : Memory := fun a =>
  if a = 0x9000 then ⟨20, 0xFF000, 0, 0x1E01000, 0, 1⟩ else ⟨0, 0, 0, 0, 0, 0⟩

/-- The table of `memA` with the high halves of base and length set and the `size` fields
changed. -/
def memAHigh : Memory := fun a =>
  if a = 0x9000 then ⟨24, 0, 1, 0x9FC00, 0, 1⟩
  else if a = 0x9018 then ⟨24, 0x9FC00, 0, 0x60400, 0, 2⟩
  else if a = 0x9030 then ⟨24, 0x100000, 7, 0x1E00000, 3, 1⟩
  else if a = 0x9048 then ⟨24, 0xFFFC0000, 0, 0x40000, 0, 2⟩
  else ⟨0, 0, 0, 0, 0, 0⟩

/-- Collaborators whose graphics stage fails and whose allocator grants one block. -/
def envShortGrant : Collaborators :=
  { pmm_alloc_blocks := 0x208000, pmm_next_free_frame := 1, vesa_init := -1,
    kb_get_scancode := fun _ => 0 }

/-- Collaborators whose allocator reports frame index 257 after the allocation. -/
def envOver : Collaborators :=
  { pmm_alloc_blocks := 0x208000, pmm_next_free_frame := 257, vesa_init := -1,
    kb_get_scancode := fun _ => 0 }

/-- Collaborators whose allocator reports the sentinel -1 after the allocation. -/
def envSentinel : Collaborators :=
  { pmm_alloc_blocks := 0x208000, pmm_next_free_frame := -1, vesa_init := -1,
    kb_get_scancode := fun _ => 0 }

/-! ## Lemmas on the descriptor scan -/

theorem offsetsFrom_succ (s i n : Nat) :
    offsetsFrom s i (n + 1) = i :: offsetsFrom s (i + s) n := by
  unfold offsetsFrom
  rw [List.range_succ_eq_map, List.map_cons, List.map_map]
  congr 1
  · simp
  · apply List.map_congr_left
    intro j _
    simp only [Function.comp, Nat.succ_eq_add_one]
    ring

theorem offsetsFrom_zero (s i : Nat) : offsetsFrom s i 0 = [] := by
  simp [offsetsFrom]

theorem offsetsFrom_length (s i n : Nat) : (offsetsFrom s i n).length = n := by
  simp [offsetsFrom]

theorem scanLoop_exit (H : Headers) (mem : Memory) (mbi : MULTIBOOT_INFO) (fuel i : Nat)
    (kmap : KERNEL_MEMORY_MAP) (h : ¬ i < mbi.mmap_length) :
    scanLoop H mem mbi (fuel + 1) i kmap = ⟨[], some (-1), kmap⟩ := by
  simp [scanLoop, h]

theorem scanLoop_match (H : Headers) (mem : Memory) (mbi : MULTIBOOT_INFO) (fuel i : Nat)
    (kmap : KERNEL_MEMORY_MAP) (h : i < mbi.mmap_length)
    (hm : IsMatch H kmap.kernel.text_start_addr (mem (add32 mbi.mmap_addr i))) :
    scanLoop H mem mbi (fuel + 1) i kmap
      = ⟨[i], some 0, withAvailable kmap (mem (add32 mbi.mmap_addr i))⟩ := by
  obtain ⟨h1, h2⟩ := hm
  simp [scanLoop, h, h1, h2, withAvailable]

theorem scanLoop_skip (H : Headers) (mem : Memory) (mbi : MULTIBOOT_INFO) (fuel i : Nat)
    (kmap : KERNEL_MEMORY_MAP) (h : i < mbi.mmap_length)
    (hm : ¬ IsMatch H kmap.kernel.text_start_addr (mem (add32 mbi.mmap_addr i))) :
    scanLoop H mem mbi (fuel + 1) i kmap
      = { scanLoop H mem mbi fuel (add32 i (stride H)) kmap with
          examined := i :: (scanLoop H mem mbi fuel (add32 i (stride H)) kmap).examined } := by
  unfold IsMatch at hm
  by_cases h1 : (mem (add32 mbi.mmap_addr i)).type = H.MULTIBOOT_MEMORY_AVAILABLE
  · have h2 : ¬ (mem (add32 mbi.mmap_addr i)).addr_low = kmap.kernel.text_start_addr :=
      fun h2 => hm ⟨h1, h2⟩
    simp [scanLoop, h, h1, h2]
  · simp [scanLoop, h, h1]

theorem add32_small (a b : Nat) (h : a + b < 4294967296) : add32 a b = a + b := by
  unfold add32; exact Nat.mod_eq_of_lt h

/-- The scan started at offset `i` reaches a first match `k` entries further on. -/
theorem scanLoop_found (H : Headers) (mem : Memory) (mbi : MULTIBOOT_INFO)
    (kmap : KERNEL_MEMORY_MAP) (k : Nat) :
    ∀ (i fuel : Nat), k < fuel → i + k * stride H < mbi.mmap_length →
      i + k * stride H < 4294967296 →
      (∀ j, j < k → ¬ IsMatch H kmap.kernel.text_start_addr
        (mem (add32 mbi.mmap_addr (i + j * stride H)))) →
      IsMatch H kmap.kernel.text_start_addr (mem (add32 mbi.mmap_addr (i + k * stride H))) →
      scanLoop H mem mbi fuel i kmap
        = ⟨offsetsFrom (stride H) i (k + 1), some 0,
            withAvailable kmap (mem (add32 mbi.mmap_addr (i + k * stride H)))⟩ := by
  induction k with
  | zero =>
    intro i fuel hf hlt _ _ hm
    obtain ⟨f, rfl⟩ : ∃ f, fuel = f + 1 := ⟨fuel - 1, by omega⟩
    simp only [Nat.zero_mul, Nat.add_zero] at hlt hm ⊢
    rw [scanLoop_match H mem mbi f i kmap hlt hm, offsetsFrom_succ, offsetsFrom_zero]
  | succ k ih =>
    intro i fuel hf hlt h32 hno hm
    obtain ⟨f, rfl⟩ : ∃ f, fuel = f + 1 := ⟨fuel - 1, by omega⟩
    have hexp : i + (k + 1) * stride H = (i + stride H) + k * stride H := by ring
    have hi : i < mbi.mmap_length := by rw [hexp] at hlt; omega
    have h0 : ¬ IsMatch H kmap.kernel.text_start_addr (mem (add32 mbi.mmap_addr i)) := by
      have := hno 0 (Nat.succ_pos k)
      simpa using this
    have hadd : add32 i (stride H) = i + stride H := by
      apply add32_small; rw [hexp] at h32; omega
    rw [scanLoop_skip H mem mbi f i kmap hi h0, hadd]
    rw [ih (i + stride H) f (by omega) (by rw [← hexp]; exact hlt) (by rw [← hexp]; exact h32)
      (fun j hj => by
        have := hno (j + 1) (by omega)
        have e : i + (j + 1) * stride H = i + stride H + j * stride H := by ring
        rw [e] at this; exact this)
      (by rw [← hexp]; exact hm)]
    rw [offsetsFrom_succ (stride H) i (k + 1), hexp]

/-- The scan started at offset `i` runs off the end of the table after `n` entries, none of
which matches. -/
theorem scanLoop_exhausted (H : Headers) (mem : Memory) (mbi : MULTIBOOT_INFO)
    (kmap : KERNEL_MEMORY_MAP) (n : Nat) :
    ∀ (i fuel : Nat), n < fuel → i + n * stride H < 4294967296 →
      mbi.mmap_length ≤ i + n * stride H →
      (∀ j, j < n → i + j * stride H < mbi.mmap_length) →
      (∀ j, j < n → ¬ IsMatch H kmap.kernel.text_start_addr
        (mem (add32 mbi.mmap_addr (i + j * stride H)))) →
      scanLoop H mem mbi fuel i kmap = ⟨offsetsFrom (stride H) i n, some (-1), kmap⟩ := by
  induction n with
  | zero =>
    intro i fuel hf _ hle _ _
    obtain ⟨f, rfl⟩ : ∃ f, fuel = f + 1 := ⟨fuel - 1, by omega⟩
    simp only [Nat.zero_mul, Nat.add_zero] at hle
    rw [scanLoop_exit H mem mbi f i kmap (by omega)]
    simp [offsetsFrom]
  | succ n ih =>
    intro i fuel hf h32 hle hin hno
    obtain ⟨f, rfl⟩ : ∃ f, fuel = f + 1 := ⟨fuel - 1, by omega⟩
    have hexp : i + (n + 1) * stride H = (i + stride H) + n * stride H := by ring
    have hi : i < mbi.mmap_length := by simpa using hin 0 (Nat.succ_pos n)
    have h0 : ¬ IsMatch H kmap.kernel.text_start_addr (mem (add32 mbi.mmap_addr i)) := by
      simpa using hno 0 (Nat.succ_pos n)
    have hadd : add32 i (stride H) = i + stride H := by
      apply add32_small; rw [hexp] at h32; omega
    rw [scanLoop_skip H mem mbi f i kmap hi h0, hadd]
    rw [ih (i + stride H) f (by omega) (by rw [← hexp]; exact h32) (by rw [← hexp]; exact hle)
      (fun j hj => by
        have := hin (j + 1) (by omega)
        have e : i + (j + 1) * stride H = i + stride H + j * stride H := by ring
        rw [e] at this; exact this)
      (fun j hj => by
        have := hno (j + 1) (by omega)
        have e : i + (j + 1) * stride H = i + stride H + j * stride H := by ring
        rw [e] at this; exact this)]
    rw [offsetsFrom_succ (stride H) i n]

/-! ## Lemmas on whole calls of `get_kernel_memory_map` -/

theorem lt_entryCount_iff (H : Headers) (mbi : MULTIBOOT_INFO) (hS : 0 < stride H) (j : Nat) :
    j < entryCount H mbi ↔ j * stride H < mbi.mmap_length := by
  unfold entryCount
  rw [Nat.lt_iff_add_one_le, Nat.le_div_iff_mul_le hS, Nat.add_mul]
  omega

theorem le_entryCount_mul (H : Headers) (mbi : MULTIBOOT_INFO) (hS : 0 < stride H) :
    mbi.mmap_length ≤ entryCount H mbi * stride H := by
  by_contra h
  have := (lt_entryCount_iff H mbi hS (entryCount H mbi)).mpr (by omega)
  omega

theorem fillSections_text (L : LinkerSymbols) (mbi : MULTIBOOT_INFO) (kmap : KERNEL_MEMORY_MAP) :
    (fillSections L mbi kmap).kernel.text_start_addr = L.__kernel_text_section_start := rfl

/-- A call on a table whose first match is entry `k`. -/
theorem get_kernel_memory_map_found (H : Headers) (L : LinkerSymbols) (mem : Memory)
    (mbi : MULTIBOOT_INFO) (kmap : KERNEL_MEMORY_MAP) (k fuel : Nat)
    (hlen : mbi.mmap_length < 4294967296) (hk : k * stride H < mbi.mmap_length)
    (hm : IsMatch H L.__kernel_text_section_start (entryAt H mem mbi k))
    (hfirst : ∀ j, j < k → ¬ IsMatch H L.__kernel_text_section_start (entryAt H mem mbi j))
    (hfuel : k < fuel) :
    get_kernel_memory_map H L mem fuel (some kmap) mbi
      = ⟨offsetsFrom (stride H) 0 (k + 1), some 0,
          some (withAvailable (fillSections L mbi kmap) (entryAt H mem mbi k))⟩ := by
  have h := scanLoop_found H mem mbi (fillSections L mbi kmap) k 0 fuel hfuel
    (by simpa using hk) (by simp only [Nat.zero_add]; omega)
    (fun j hj => by simpa [entryAt, fillSections_text] using hfirst j hj)
    (by simpa [entryAt, fillSections_text] using hm)
  simp only [get_kernel_memory_map, h, entryAt, Nat.zero_add]

/-- A call on a well-formed table without a match. -/
theorem get_kernel_memory_map_nomatch (H : Headers) (L : LinkerSymbols) (mem : Memory)
    (mbi : MULTIBOOT_INFO) (kmap : KERNEL_MEMORY_MAP) (fuel : Nat)
    (hwf : WellFormedTable H mbi)
    (hno : ∀ j, j < entryCount H mbi →
      ¬ IsMatch H L.__kernel_text_section_start (entryAt H mem mbi j))
    (hfuel : entryCount H mbi < fuel) :
    get_kernel_memory_map H L mem fuel (some kmap) mbi
      = ⟨offsetsFrom (stride H) 0 (entryCount H mbi), some (-1),
          some (fillSections L mbi kmap)⟩ := by
  obtain ⟨hS, h32⟩ := hwf
  have h := scanLoop_exhausted H mem mbi (fillSections L mbi kmap) (entryCount H mbi) 0 fuel
    hfuel (by simpa using h32) (by simpa using le_entryCount_mul H mbi hS)
    (fun j hj => by simpa using (lt_entryCount_iff H mbi hS j).mp hj)
    (fun j hj => by simpa [entryAt, fillSections_text] using hno j hj)
  simp only [get_kernel_memory_map, h]

theorem sub32_rearrange (b l x : Nat) :
    sub32 (add32 b l) x = sub32 l (sub32 x b) := by
  unfold sub32 add32
  omega

/-- A table that holds a match holds a first one. -/
theorem exists_first_match (H : Headers) (loadAddr : Nat) (mem : Memory) (mbi : MULTIBOOT_INFO)
    (hex : ∃ k, k * stride H < mbi.mmap_length ∧ IsMatch H loadAddr (entryAt H mem mbi k)) :
    ∃ k, k * stride H < mbi.mmap_length ∧ IsMatch H loadAddr (entryAt H mem mbi k) ∧
      ∀ j, j < k → ¬ IsMatch H loadAddr (entryAt H mem mbi j) := by
  classical
  have hspec := Nat.find_spec hex
  refine ⟨Nat.find hex, hspec.1, hspec.2, ?_⟩
  intro j hj hmj
  have hle : j * stride H ≤ Nat.find hex * stride H := Nat.mul_le_mul_right _ (Nat.le_of_lt hj)
  exact Nat.find_min hex hj ⟨lt_of_le_of_lt hle hspec.1, hmj⟩

/-! ## C1: success on the first matching entry -/

/-- C1: when the table holds an available entry based at the kernel's load address, the call
returns 0 for every sufficient fuel, the scan stops at the first such entry `k`, and the
available window is computed from that entry: start is kernel end plus 1 MiB, end is base
plus length, size is end minus start, which is length minus (start minus base), all in
unsigned 32-bit arithmetic. -/
theorem get_kernel_memory_map_first_match (H : Headers) (L : LinkerSymbols) (mem : Memory)
    (mbi : MULTIBOOT_INFO) (kmap : KERNEL_MEMORY_MAP)
    (hlen : mbi.mmap_length < 4294967296)
    (hex : ∃ k, k * stride H < mbi.mmap_length ∧
      IsMatch H L.__kernel_text_section_start (entryAt H mem mbi k)) :
    ∃ k, k * stride H < mbi.mmap_length ∧
      IsMatch H L.__kernel_text_section_start (entryAt H mem mbi k) ∧
      (∀ j, j < k → ¬ IsMatch H L.__kernel_text_section_start (entryAt H mem mbi j)) ∧
      ∀ fuel, k < fuel → ∃ km,
        get_kernel_memory_map H L mem fuel (some kmap) mbi
          = ⟨offsetsFrom (stride H) 0 (k + 1), some 0, some km⟩ ∧
        km.kernel.k_end_addr = L.__kernel_section_end ∧
        km.available.start_addr = add32 km.kernel.k_end_addr (1024 * 1024) ∧
        km.available.end_addr
          = add32 (entryAt H mem mbi k).addr_low (entryAt H mem mbi k).len_low ∧
        km.available.size = sub32 km.available.end_addr km.available.start_addr ∧
        km.available.size = sub32 (entryAt H mem mbi k).len_low
          (sub32 (add32 km.kernel.k_end_addr (1024 * 1024)) (entryAt H mem mbi k).addr_low) := by
  obtain ⟨k, hk, hm, hfirst⟩ := exists_first_match H L.__kernel_text_section_start mem mbi hex
  refine ⟨k, hk, hm, hfirst, fun fuel hfuel => ?_⟩
  exact ⟨withAvailable (fillSections L mbi kmap) (entryAt H mem mbi k),
    get_kernel_memory_map_found H L mem mbi kmap k fuel hlen hk hm hfirst hfuel,
    rfl, rfl, rfl, rfl, sub32_rearrange _ _ _⟩

/-- Scenario A: the hypotheses of C1 hold, and the first match is the third entry, giving
start `0x208000`, end `0x1F00000` and size `0x1CF8000`. -/
theorem get_kernel_memory_map_first_match_witness :
    (∃ k, k * stride multibootHeaders < mbiA.mmap_length ∧
      IsMatch multibootHeaders symA.__kernel_text_section_start
        (entryAt multibootHeaders memA mbiA k) ∧
      (∀ j, j < k → ¬ IsMatch multibootHeaders symA.__kernel_text_section_start
        (entryAt multibootHeaders memA mbiA j)) ∧
      ∀ fuel, k < fuel → ∃ km,
        get_kernel_memory_map multibootHeaders symA memA fuel (some zeroMap) mbiA
          = ⟨offsetsFrom (stride multibootHeaders) 0 (k + 1), some 0, some km⟩ ∧
        km.kernel.k_end_addr = symA.__kernel_section_end ∧
        km.available.start_addr = add32 km.kernel.k_end_addr (1024 * 1024) ∧
        km.available.end_addr = add32 (entryAt multibootHeaders memA mbiA k).addr_low
          (entryAt multibootHeaders memA mbiA k).len_low ∧
        km.available.size = sub32 km.available.end_addr km.available.start_addr ∧
        km.available.size = sub32 (entryAt multibootHeaders memA mbiA k).len_low
          (sub32 (add32 km.kernel.k_end_addr (1024 * 1024))
            (entryAt multibootHeaders memA mbiA k).addr_low)) ∧
    (get_kernel_memory_map multibootHeaders symA memA 3 (some zeroMap) mbiA).examined
      = [0, 24, 48] ∧
    (get_kernel_memory_map multibootHeaders symA memA 3 (some zeroMap) mbiA).ret = some 0 ∧
    ((get_kernel_memory_map multibootHeaders symA memA 3 (some zeroMap) mbiA).kmap.map
      (fun km => km.available)) = some ⟨0x208000, 0x1F00000, 0x1CF8000⟩ :=
  ⟨get_kernel_memory_map_first_match multibootHeaders symA memA mbiA zeroMap (by decide)
    ⟨2, by decide, by decide⟩, by decide, by decide, by decide⟩

/-! ## C2: failure on a null map and on a table without a match -/

/-- C2: a call with a `NULL` map returns -1 and writes nothing; a call on a well-formed table
that has no available entry based at the kernel's load address returns -1 for every
sufficient fuel and leaves the three `available` fields as they were before the call, so
they are zero when the map was zero-initialised. -/
theorem get_kernel_memory_map_failure (H : Headers) (L : LinkerSymbols) (mem : Memory)
    (mbi : MULTIBOOT_INFO) :
    (∀ fuel, get_kernel_memory_map H L mem fuel none mbi = ⟨[], some (-1), none⟩) ∧
    (WellFormedTable H mbi →
      (∀ j, j < entryCount H mbi →
        ¬ IsMatch H L.__kernel_text_section_start (entryAt H mem mbi j)) →
      ∀ fuel, entryCount H mbi < fuel →
        (∀ kmap, ∃ km,
          (get_kernel_memory_map H L mem fuel (some kmap) mbi).ret = some (-1) ∧
          (get_kernel_memory_map H L mem fuel (some kmap) mbi).kmap = some km ∧
          km.available = kmap.available) ∧
        ∃ km0,
          (get_kernel_memory_map H L mem fuel (some zeroMap) mbi).kmap = some km0 ∧
          km0.available = ⟨0, 0, 0⟩) := by
  refine ⟨fun fuel => rfl, ?_⟩
  intro hwf hno fuel hfuel
  refine ⟨fun kmap => ⟨fillSections L mbi kmap, ?_, ?_, rfl⟩,
    ⟨fillSections L mbi zeroMap, ?_, rfl⟩⟩
  · rw [get_kernel_memory_map_nomatch H L mem mbi kmap fuel hwf hno hfuel]
  · rw [get_kernel_memory_map_nomatch H L mem mbi kmap fuel hwf hno hfuel]
  · rw [get_kernel_memory_map_nomatch H L mem mbi zeroMap fuel hwf hno hfuel]

/-- Scenario C: usable memory exists at 0 and at 2 MiB and the entry at the load address is
reserved; the hypotheses of C2 hold and the call fails with the available fields untouched. -/
theorem get_kernel_memory_map_failure_witness :
    WellFormedTable multibootHeaders mbiC ∧
    (∀ j, j < entryCount multibootHeaders mbiC →
      ¬ IsMatch multibootHeaders symA.__kernel_text_section_start
        (entryAt multibootHeaders memC mbiC j)) ∧
    entryCount multibootHeaders mbiC < 4 ∧
    (entryAt multibootHeaders memC mbiC 2).type = multibootHeaders.MULTIBOOT_MEMORY_AVAILABLE ∧
    (entryAt multibootHeaders memC mbiC 1).addr_low = symA.__kernel_text_section_start ∧
    ((∀ kmap, ∃ km,
        (get_kernel_memory_map multibootHeaders symA memC 4 (some kmap) mbiC).ret = some (-1) ∧
        (get_kernel_memory_map multibootHeaders symA memC 4 (some kmap) mbiC).kmap = some km ∧
        km.available = kmap.available) ∧
      ∃ km0,
        (get_kernel_memory_map multibootHeaders symA memC 4 (some zeroMap) mbiC).kmap = some km0 ∧
        km0.available = ⟨0, 0, 0⟩) :=
  ⟨by decide, by decide, by decide, by decide, by decide,
    (get_kernel_memory_map_failure multibootHeaders symA memC mbiC).2 (by decide) (by decide) 4
      (by decide)⟩

/-! ## C3: a matching entry that ends below the window start -/

/-- C3, as stated, fails: the only entry is available, based at the load address `0x100000`
and `0x1000` bytes long, so it ends at `0x101000`, below kernel end plus 1 MiB `0x208000`;
the call returns 0, not -1, with the wrapped size `0xFFEF9000`. -/
theorem get_kernel_memory_map_negative_size_counterexample :
    (entryAt multibootHeaders memShort mbiShort 0).addr_low
        + (entryAt multibootHeaders memShort mbiShort 0).len_low
      < symA.__kernel_section_end + 1024 * 1024 ∧
    IsMatch multibootHeaders symA.__kernel_text_section_start
      (entryAt multibootHeaders memShort mbiShort 0) ∧
    (get_kernel_memory_map multibootHeaders symA memShort 2 (some zeroMap) mbiShort).ret
      = some 0 ∧
    (get_kernel_memory_map multibootHeaders symA memShort 2 (some zeroMap) mbiShort).ret
      ≠ some (-1) ∧
    ((get_kernel_memory_map multibootHeaders symA memShort 2 (some zeroMap) mbiShort).kmap.map
      (fun km => km.available)) = some ⟨0x208000, 0x101000, 0xFFEF9000⟩ := by
  decide

/-- C3, amended: when the first matching entry ends below the window start (the stored
`end_addr` is less than the stored `start_addr`), the call still returns 0 for every
sufficient fuel, and the stored size is the wrapped difference
`2 ^ 32 - (start_addr - end_addr)`. -/
theorem get_kernel_memory_map_negative_size_wraps (H : Headers) (L : LinkerSymbols)
    (mem : Memory) (mbi : MULTIBOOT_INFO) (kmap : KERNEL_MEMORY_MAP) (k fuel : Nat)
    (hlen : mbi.mmap_length < 4294967296) (hk : k * stride H < mbi.mmap_length)
    (hm : IsMatch H L.__kernel_text_section_start (entryAt H mem mbi k))
    (hfirst : ∀ j, j < k → ¬ IsMatch H L.__kernel_text_section_start (entryAt H mem mbi j))
    (hfuel : k < fuel)
    (hneg : add32 (entryAt H mem mbi k).addr_low (entryAt H mem mbi k).len_low
      < add32 L.__kernel_section_end (1024 * 1024)) :
    ∃ km,
      get_kernel_memory_map H L mem fuel (some kmap) mbi
        = ⟨offsetsFrom (stride H) 0 (k + 1), some 0, some km⟩ ∧
      km.available.start_addr = add32 L.__kernel_section_end (1024 * 1024) ∧
      km.available.end_addr
        = add32 (entryAt H mem mbi k).addr_low (entryAt H mem mbi k).len_low ∧
      km.available.end_addr < km.available.start_addr ∧
      km.available.size
        = 4294967296 - (km.available.start_addr - km.available.end_addr) := by
  refine ⟨withAvailable (fillSections L mbi kmap) (entryAt H mem mbi k),
    get_kernel_memory_map_found H L mem mbi kmap k fuel hlen hk hm hfirst hfuel,
    rfl, rfl, hneg, ?_⟩
  show sub32 (add32 (entryAt H mem mbi k).addr_low (entryAt H mem mbi k).len_low)
      (add32 L.__kernel_section_end (1024 * 1024))
    = 4294967296 - (add32 L.__kernel_section_end (1024 * 1024)
      - add32 (entryAt H mem mbi k).addr_low (entryAt H mem mbi k).len_low)
  have h1 : add32 L.__kernel_section_end (1024 * 1024) < 4294967296 :=
    Nat.mod_lt _ (by decide)
  revert hneg h1
  generalize add32 (entryAt H mem mbi k).addr_low (entryAt H mem mbi k).len_low = e
  generalize add32 L.__kernel_section_end (1024 * 1024) = s
  intro hneg h1
  unfold sub32
  omega

/-- The short-region table satisfies the hypotheses of the amended C3 and yields success
with a wrapped size. -/
theorem get_kernel_memory_map_negative_size_wraps_witness :
    ∃ km,
      get_kernel_memory_map multibootHeaders symA memShort 2 (some zeroMap) mbiShort
        = ⟨offsetsFrom (stride multibootHeaders) 0 (0 + 1), some 0, some km⟩ ∧
      km.available.start_addr = add32 symA.__kernel_section_end (1024 * 1024) ∧
      km.available.end_addr
        = add32 (entryAt multibootHeaders memShort mbiShort 0).addr_low
            (entryAt multibootHeaders memShort mbiShort 0).len_low ∧
      km.available.end_addr < km.available.start_addr ∧
      km.available.size
        = 4294967296 - (km.available.start_addr - km.available.end_addr) :=
  get_kernel_memory_map_negative_size_wraps multibootHeaders symA memShort mbiShort zeroMap 0 2
    (by decide) (by decide) (by decide) (by decide) (by decide) (by decide)

/-! ## C4: the stride of the walk -/

theorem scanLoop_examined_get (H : Headers) (mem : Memory) (mbi : MULTIBOOT_INFO)
    (kmap : KERNEL_MEMORY_MAP) (k : Nat) :
    ∀ (i fuel : Nat), k < fuel → i + k * stride H < mbi.mmap_length →
      i + k * stride H < 4294967296 →
      (∀ j, j < k → ¬ IsMatch H kmap.kernel.text_start_addr
        (mem (add32 mbi.mmap_addr (i + j * stride H)))) →
      (scanLoop H mem mbi fuel i kmap).examined[k]? = some (i + k * stride H) := by
  induction k with
  | zero =>
    intro i fuel hf hlt _ _
    obtain ⟨f, rfl⟩ : ∃ f, fuel = f + 1 := ⟨fuel - 1, by omega⟩
    simp only [Nat.zero_mul, Nat.add_zero] at hlt ⊢
    by_cases hm : IsMatch H kmap.kernel.text_start_addr (mem (add32 mbi.mmap_addr i))
    · rw [scanLoop_match H mem mbi f i kmap hlt hm]; simp
    · rw [scanLoop_skip H mem mbi f i kmap hlt hm]; simp
  | succ k ih =>
    intro i fuel hf hlt h32 hno
    obtain ⟨f, rfl⟩ : ∃ f, fuel = f + 1 := ⟨fuel - 1, by omega⟩
    have hexp : i + (k + 1) * stride H = (i + stride H) + k * stride H := by ring
    have hi : i < mbi.mmap_length := by rw [hexp] at hlt; omega
    have h0 : ¬ IsMatch H kmap.kernel.text_start_addr (mem (add32 mbi.mmap_addr i)) := by
      simpa using hno 0 (Nat.succ_pos k)
    have hadd : add32 i (stride H) = i + stride H := by
      apply add32_small; rw [hexp] at h32; omega
    rw [scanLoop_skip H mem mbi f i kmap hi h0, hadd]
    have := ih (i + stride H) f (by omega) (by rw [← hexp]; exact hlt)
      (by rw [← hexp]; exact h32)
      (fun j hj => by
        have := hno (j + 1) (by omega)
        have e : i + (j + 1) * stride H = i + stride H + j * stride H := by ring
        rw [e] at this; exact this)
    rw [hexp]
    simpa using this

/-- C4, as stated, fails: in a table of two entries that each declare 40 bytes, the walk by
declared sizes visits offsets 0 and 40 and meets the matching entry at 40, but the code
examines offsets 0, 24, 48 and 72, never reads the entry at 40, and returns -1. -/
theorem get_kernel_memory_map_declared_size_counterexample :
    (entryAt multibootHeaders memVar mbiVar 0).size
      ≠ multibootHeaders.sizeof_MULTIBOOT_MEMORY_MAP ∧
    declaredSizeWalk memVar mbiVar 5 0 = [0, 40] ∧
    IsMatch multibootHeaders symA.__kernel_text_section_start
      (memVar (add32 mbiVar.mmap_addr 40)) ∧
    (get_kernel_memory_map multibootHeaders symA memVar 5 (some zeroMap) mbiVar).examined
      = [0, 24, 48, 72] ∧
    (get_kernel_memory_map multibootHeaders symA memVar 5 (some zeroMap) mbiVar).examined
      ≠ declaredSizeWalk memVar mbiVar 5 0 ∧
    (get_kernel_memory_map multibootHeaders symA memVar 5 (some zeroMap) mbiVar).ret
      = some (-1) := by
  decide

/-- C4, amended: the walk starts at offset 0 and advances by the fixed
`sizeof(MULTIBOOT_MEMORY_MAP)`, whatever size the entries declare. As long as no earlier
entry matched, the entry examined in position `k` (counting from 0) is the one at offset
`k * sizeof`; on a well-formed table without a match the offsets examined are exactly
`0, sizeof, ..., (entryCount - 1) * sizeof`, each below `mmap_length`, and the walk then
stops with -1. -/
theorem get_kernel_memory_map_fixed_stride (H : Headers) (L : LinkerSymbols) (mem : Memory)
    (mbi : MULTIBOOT_INFO) (kmap : KERNEL_MEMORY_MAP) (hlen : mbi.mmap_length < 4294967296) :
    (∀ k fuel, k < fuel → k * stride H < mbi.mmap_length →
      (∀ j, j < k → ¬ IsMatch H L.__kernel_text_section_start (entryAt H mem mbi j)) →
      (get_kernel_memory_map H L mem fuel (some kmap) mbi).examined[k]?
        = some (k * stride H)) ∧
    (WellFormedTable H mbi →
      (∀ j, j < entryCount H mbi →
        ¬ IsMatch H L.__kernel_text_section_start (entryAt H mem mbi j)) →
      ∀ fuel, entryCount H mbi < fuel →
        (get_kernel_memory_map H L mem fuel (some kmap) mbi).examined
          = (List.range (entryCount H mbi)).map (fun k => k * stride H) ∧
        (∀ off ∈ (get_kernel_memory_map H L mem fuel (some kmap) mbi).examined,
          off < mbi.mmap_length) ∧
        (get_kernel_memory_map H L mem fuel (some kmap) mbi).ret = some (-1)) := by
  constructor
  · intro k fuel hfuel hk hfirst
    have h := scanLoop_examined_get H mem mbi (fillSections L mbi kmap) k 0 fuel hfuel
      (by simpa using hk) (by simp only [Nat.zero_add]; omega)
      (fun j hj => by simpa [entryAt, fillSections_text] using hfirst j hj)
    simpa [get_kernel_memory_map] using h
  · intro hwf hno fuel hfuel
    rw [get_kernel_memory_map_nomatch H L mem mbi kmap fuel hwf hno hfuel]
    refine ⟨by simp [offsetsFrom], ?_, rfl⟩
    intro off hoff
    simp only [offsetsFrom, List.mem_map, List.mem_range] at hoff
    obtain ⟨j, hj, rfl⟩ := hoff
    simpa using (lt_entryCount_iff H mbi hwf.1 j).mp hj

/-- On the table of 40-byte entries the hypotheses of the amended C4 hold: position 3 of the
walk is offset 72, and the whole walk is `0, 24, 48, 72` followed by -1. -/
theorem get_kernel_memory_map_fixed_stride_witness :
    (get_kernel_memory_map multibootHeaders symA memVar 5 (some zeroMap) mbiVar).examined[3]?
        = some (3 * stride multibootHeaders) ∧
    ((get_kernel_memory_map multibootHeaders symA memVar 5 (some zeroMap) mbiVar).examined
        = (List.range (entryCount multibootHeaders mbiVar)).map
            (fun k => k * stride multibootHeaders) ∧
      (∀ off ∈ (get_kernel_memory_map multibootHeaders symA memVar 5 (some zeroMap)
          mbiVar).examined, off < mbiVar.mmap_length) ∧
      (get_kernel_memory_map multibootHeaders symA memVar 5 (some zeroMap) mbiVar).ret
        = some (-1)) :=
  ⟨(get_kernel_memory_map_fixed_stride multibootHeaders symA memVar mbiVar zeroMap
      (by decide)).1 3 5 (by decide) (by decide) (by decide),
    (get_kernel_memory_map_fixed_stride multibootHeaders symA memVar mbiVar zeroMap
      (by decide)).2 (by decide) (by decide) 5 (by decide)⟩

/-! ## C9: termination of the scan -/

theorem scanLoop_wrap (kmap : KERNEL_MEMORY_MAP) :
    ∀ (fuel i : Nat), i % 8 = 0 → i < 4294967296 →
      scanLoop multibootHeaders memReserved mbiWrap fuel i kmap
        = ⟨(List.range fuel).map (fun j => (i + 24 * j) % 4294967296), none, kmap⟩ := by
  intro fuel
  induction fuel with
  | zero => intro i _ _; simp [scanLoop]
  | succ f ih =>
    intro i h8 h32
    have hi : i < mbiWrap.mmap_length := by
      show i < 4294967295
      omega
    have hm : ¬ IsMatch multibootHeaders kmap.kernel.text_start_addr
        (memReserved (add32 mbiWrap.mmap_addr i)) := by
      intro h
      have h2 : (2 : Nat) = 1 := h.1
      omega
    rw [scanLoop_skip multibootHeaders memReserved mbiWrap f i kmap hi hm]
    have hs : add32 i (stride multibootHeaders) = (i + 24) % 4294967296 := rfl
    have hlist : (List.range (f + 1)).map (fun j => (i + 24 * j) % 4294967296)
        = i :: (List.range f).map (fun j => ((i + 24) % 4294967296 + 24 * j) % 4294967296) := by
      rw [List.range_succ_eq_map, List.map_cons, List.map_map]
      congr 1
      · simp [Nat.mod_eq_of_lt h32]
      · apply List.map_congr_left
        intro j _
        simp only [Function.comp, Nat.succ_eq_add_one]
        omega
    rw [hs, ih ((i + 24) % 4294967296) (by omega) (Nat.mod_lt _ (by decide)), hlist]

/-- C9 at `mmap_length = 0xFFFFFFFF` with a table that has no available entry: for every
amount of fuel the call has not returned, the number of entries examined equals the fuel
(so it exceeds `ceil(mmap_length / 24) = 178956971`), and after the offset `4294967280`
the 32-bit loop variable wraps to offset 8. -/
theorem get_kernel_memory_map_wraps_forever :
    ∀ fuel,
      (get_kernel_memory_map multibootHeaders symA memReserved fuel (some zeroMap)
        mbiWrap).ret = none ∧
      (get_kernel_memory_map multibootHeaders symA memReserved fuel (some zeroMap)
        mbiWrap).examined.length = fuel ∧
      (get_kernel_memory_map multibootHeaders symA memReserved (178956972 + fuel)
        (some zeroMap) mbiWrap).examined[178956970]? = some 4294967280 ∧
      (get_kernel_memory_map multibootHeaders symA memReserved (178956972 + fuel)
        (some zeroMap) mbiWrap).examined[178956971]? = some 8 := by
  intro fuel
  simp only [get_kernel_memory_map]
  rw [scanLoop_wrap _ fuel 0 (by decide) (by decide),
    scanLoop_wrap _ (178956972 + fuel) 0 (by decide) (by decide)]
  refine ⟨rfl, by simp, ?_, ?_⟩
  · rw [List.getElem?_map, List.getElem?_range (by omega)]
    rfl
  · rw [List.getElem?_map, List.getElem?_range (by omega)]
    rfl

/-! ## C8: the section records and the memory total -/

theorem withAvailable_kernel (kmap : KERNEL_MEMORY_MAP) (e : MULTIBOOT_MEMORY_MAP) :
    (withAvailable kmap e).kernel = kmap.kernel := by
  cases kmap; rfl

theorem withAvailable_system (kmap : KERNEL_MEMORY_MAP) (e : MULTIBOOT_MEMORY_MAP) :
    (withAvailable kmap e).system = kmap.system := by
  cases kmap; rfl

theorem scanLoop_kernel_system (H : Headers) (mem : Memory) (mbi : MULTIBOOT_INFO) :
    ∀ (fuel i : Nat) (kmap : KERNEL_MEMORY_MAP),
      (scanLoop H mem mbi fuel i kmap).kmap.kernel = kmap.kernel ∧
      (scanLoop H mem mbi fuel i kmap).kmap.system = kmap.system := by
  intro fuel
  induction fuel with
  | zero => intro i kmap; simp only [scanLoop, and_self]
  | succ f ih =>
    intro i kmap
    by_cases hi : i < mbi.mmap_length
    · by_cases hm : IsMatch H kmap.kernel.text_start_addr (mem (add32 mbi.mmap_addr i))
      · rw [scanLoop_match H mem mbi f i kmap hi hm]
        exact ⟨withAvailable_kernel _ _, withAvailable_system _ _⟩
      · rw [scanLoop_skip H mem mbi f i kmap hi hm]
        exact ih (add32 i (stride H)) kmap
    · rw [scanLoop_exit H mem mbi f i kmap hi]
      simp only [and_self]

theorem sub32_exact (a b : Nat) (hab : b ≤ a) (ha : a < 4294967296) : sub32 a b = a - b := by
  unfold sub32
  omega

theorem sectionRecordOf_mk (a b : Nat) : SectionRecordOf a b (sub32 b a) a b :=
  ⟨rfl, rfl, rfl, fun h1 h2 => sub32_exact b a h1 h2⟩

/-- C8: after any call with a non-null map, whatever the fuel spent and whether or not the
call has returned, each of the five section records holds the start symbol, the end symbol
and their `uint32` difference (the true byte count when the end is not below the start), and
`system.total_memory` is the `uint32` sum of `mem_low` and `mem_high` (their exact sum when
it fits in 32 bits). -/
theorem get_kernel_memory_map_sections (H : Headers) (L : LinkerSymbols) (mem : Memory)
    (mbi : MULTIBOOT_INFO) (kmap : KERNEL_MEMORY_MAP) (fuel : Nat) :
    ∃ km, (get_kernel_memory_map H L mem fuel (some kmap) mbi).kmap = some km ∧
      SectionRecordOf km.kernel.k_start_addr km.kernel.k_end_addr km.kernel.k_len
        L.__kernel_section_start L.__kernel_section_end ∧
      SectionRecordOf km.kernel.text_start_addr km.kernel.text_end_addr km.kernel.text_len
        L.__kernel_text_section_start L.__kernel_text_section_end ∧
      SectionRecordOf km.kernel.data_start_addr km.kernel.data_end_addr km.kernel.data_len
        L.__kernel_data_section_start L.__kernel_data_section_end ∧
      SectionRecordOf km.kernel.rodata_start_addr km.kernel.rodata_end_addr km.kernel.rodata_len
        L.__kernel_rodata_section_start L.__kernel_rodata_section_end ∧
      SectionRecordOf km.kernel.bss_start_addr km.kernel.bss_end_addr km.kernel.bss_len
        L.__kernel_bss_section_start L.__kernel_bss_section_end ∧
      km.system.total_memory = add32 mbi.mem_low mbi.mem_high ∧
      (mbi.mem_low + mbi.mem_high < 4294967296 →
        km.system.total_memory = mbi.mem_low + mbi.mem_high) := by
  obtain ⟨hk, hs⟩ := scanLoop_kernel_system H mem mbi fuel 0 (fillSections L mbi kmap)
  refine ⟨(scanLoop H mem mbi fuel 0 (fillSections L mbi kmap)).kmap, rfl, ?_⟩
  rw [hk, hs]
  exact ⟨sectionRecordOf_mk _ _, sectionRecordOf_mk _ _, sectionRecordOf_mk _ _,
    sectionRecordOf_mk _ _, sectionRecordOf_mk _ _, rfl, fun h => add32_small _ _ h⟩

/-- Scenario A after a successful call: the memory total is `640 + 30720 = 31360` KB and
the whole-kernel record is `{0x100000, 0x108000, 0x8000}`. -/
theorem get_kernel_memory_map_sections_witness :
    mbiA.mem_low + mbiA.mem_high < 4294967296 ∧
    ((get_kernel_memory_map multibootHeaders symA memA 3 (some zeroMap) mbiA).kmap.map
      (fun km => (km.system.total_memory, km.kernel.k_start_addr, km.kernel.k_end_addr,
        km.kernel.k_len))) = some (31360, 0x100000, 0x108000, 0x8000) ∧
    ∃ km, (get_kernel_memory_map multibootHeaders symA memA 3 (some zeroMap) mbiA).kmap
        = some km ∧
      SectionRecordOf km.kernel.k_start_addr km.kernel.k_end_addr km.kernel.k_len
        symA.__kernel_section_start symA.__kernel_section_end ∧
      SectionRecordOf km.kernel.text_start_addr km.kernel.text_end_addr km.kernel.text_len
        symA.__kernel_text_section_start symA.__kernel_text_section_end ∧
      SectionRecordOf km.kernel.data_start_addr km.kernel.data_end_addr km.kernel.data_len
        symA.__kernel_data_section_start symA.__kernel_data_section_end ∧
      SectionRecordOf km.kernel.rodata_start_addr km.kernel.rodata_end_addr km.kernel.rodata_len
        symA.__kernel_rodata_section_start symA.__kernel_rodata_section_end ∧
      SectionRecordOf km.kernel.bss_start_addr km.kernel.bss_end_addr km.kernel.bss_len
        symA.__kernel_bss_section_start symA.__kernel_bss_section_end ∧
      km.system.total_memory = add32 mbiA.mem_low mbiA.mem_high ∧
      (mbiA.mem_low + mbiA.mem_high < 4294967296 →
        km.system.total_memory = mbiA.mem_low + mbiA.mem_high) :=
  ⟨by decide, rfl,
    get_kernel_memory_map_sections multibootHeaders symA memA mbiA zeroMap 3⟩

/-! ## C10: the address the bases are matched against -/

theorem scanLoop_congr_kmap (H : Headers) (mem : Memory) (mbi : MULTIBOOT_INFO) :
    ∀ (fuel i : Nat) (kmap kmap' : KERNEL_MEMORY_MAP),
      kmap.kernel.text_start_addr = kmap'.kernel.text_start_addr →
      kmap.kernel.k_end_addr = kmap'.kernel.k_end_addr →
      kmap.available = kmap'.available →
      (scanLoop H mem mbi fuel i kmap).examined = (scanLoop H mem mbi fuel i kmap').examined ∧
      (scanLoop H mem mbi fuel i kmap).ret = (scanLoop H mem mbi fuel i kmap').ret ∧
      (scanLoop H mem mbi fuel i kmap).kmap.available
        = (scanLoop H mem mbi fuel i kmap').kmap.available := by
  intro fuel
  induction fuel with
  | zero => intro i kmap kmap' _ _ ha; simp [scanLoop, ha]
  | succ f ih =>
    intro i kmap kmap' ht he ha
    by_cases hi : i < mbi.mmap_length
    · by_cases hm : IsMatch H kmap.kernel.text_start_addr (mem (add32 mbi.mmap_addr i))
      · rw [scanLoop_match H mem mbi f i kmap hi hm,
          scanLoop_match H mem mbi f i kmap' hi (ht ▸ hm)]
        simp [withAvailable, he]
      · rw [scanLoop_skip H mem mbi f i kmap hi hm,
          scanLoop_skip H mem mbi f i kmap' hi (ht ▸ hm)]
        obtain ⟨h1, h2, h3⟩ := ih (add32 i (stride H)) kmap kmap' ht he ha
        exact ⟨by simp [h1], h2, h3⟩
    · rw [scanLoop_exit H mem mbi f i kmap hi, scanLoop_exit H mem mbi f i kmap' hi]
      exact ⟨rfl, rfl, ha⟩

theorem scanLoop_congr_mem (H : Headers) (mem mem' : Memory) (mbi : MULTIBOOT_INFO)
    (hmem : ∀ a, (mem a).type = (mem' a).type ∧ (mem a).addr_low = (mem' a).addr_low ∧
      (mem a).len_low = (mem' a).len_low) :
    ∀ (fuel i : Nat) (kmap : KERNEL_MEMORY_MAP),
      scanLoop H mem mbi fuel i kmap = scanLoop H mem' mbi fuel i kmap := by
  intro fuel
  induction fuel with
  | zero => intro i kmap; simp [scanLoop]
  | succ f ih =>
    intro i kmap
    obtain ⟨h1, h2, h3⟩ := hmem (add32 mbi.mmap_addr i)
    by_cases hi : i < mbi.mmap_length
    · by_cases hm : IsMatch H kmap.kernel.text_start_addr (mem (add32 mbi.mmap_addr i))
      · have hm' : IsMatch H kmap.kernel.text_start_addr (mem' (add32 mbi.mmap_addr i)) :=
          ⟨h1 ▸ hm.1, h2 ▸ hm.2⟩
        rw [scanLoop_match H mem mbi f i kmap hi hm, scanLoop_match H mem' mbi f i kmap hi hm']
        simp [withAvailable, h2, h3]
      · have hm' : ¬ IsMatch H kmap.kernel.text_start_addr (mem' (add32 mbi.mmap_addr i)) :=
          fun h => hm ⟨h1.symm ▸ h.1, h2.symm ▸ h.2⟩
        rw [scanLoop_skip H mem mbi f i kmap hi hm, scanLoop_skip H mem' mbi f i kmap hi hm',
          ih (add32 i (stride H)) kmap]
    · rw [scanLoop_exit H mem mbi f i kmap hi, scanLoop_exit H mem' mbi f i kmap hi]

/-- C10: bases are matched against the text-section start and only `addr_low` is read.
(1) On a well-formed table whose available entries are all based at a `k_start_addr` that
differs from `text_start_addr`, the call returns -1. (2) An available entry based at
`text_start_addr` makes the call return 0 for every sufficient fuel. (3) Two sets of linker
boundaries that agree on the text start and the kernel end give the same examined offsets,
return value and available fields. (4) Two memories that agree on `type`, `addr_low` and
`len_low` of every record give the same result, whatever `addr_high` holds. -/
theorem get_kernel_memory_map_matches_text_start (H : Headers) (L : LinkerSymbols)
    (mem : Memory) (mbi : MULTIBOOT_INFO) (kmap : KERNEL_MEMORY_MAP)
    (hlen : mbi.mmap_length < 4294967296) :
    (L.__kernel_section_start ≠ L.__kernel_text_section_start → WellFormedTable H mbi →
      (∀ j, j < entryCount H mbi →
        (entryAt H mem mbi j).type = H.MULTIBOOT_MEMORY_AVAILABLE →
        (entryAt H mem mbi j).addr_low = L.__kernel_section_start) →
      ∀ fuel, entryCount H mbi < fuel →
        (get_kernel_memory_map H L mem fuel (some kmap) mbi).ret = some (-1)) ∧
    ((∃ k, k * stride H < mbi.mmap_length ∧
        (entryAt H mem mbi k).type = H.MULTIBOOT_MEMORY_AVAILABLE ∧
        (entryAt H mem mbi k).addr_low = L.__kernel_text_section_start) →
      ∃ fuel0, ∀ fuel, fuel0 ≤ fuel →
        (get_kernel_memory_map H L mem fuel (some kmap) mbi).ret = some 0) ∧
    (∀ (L' : LinkerSymbols) (fuel : Nat),
      L'.__kernel_text_section_start = L.__kernel_text_section_start →
      L'.__kernel_section_end = L.__kernel_section_end →
      (get_kernel_memory_map H L' mem fuel (some kmap) mbi).examined
        = (get_kernel_memory_map H L mem fuel (some kmap) mbi).examined ∧
      (get_kernel_memory_map H L' mem fuel (some kmap) mbi).ret
        = (get_kernel_memory_map H L mem fuel (some kmap) mbi).ret ∧
      (get_kernel_memory_map H L' mem fuel (some kmap) mbi).kmap.map (fun km => km.available)
        = (get_kernel_memory_map H L mem fuel (some kmap) mbi).kmap.map
            (fun km => km.available)) ∧
    (∀ (mem' : Memory) (fuel : Nat),
      (∀ a, (mem a).type = (mem' a).type ∧ (mem a).addr_low = (mem' a).addr_low ∧
        (mem a).len_low = (mem' a).len_low) →
      get_kernel_memory_map H L mem' fuel (some kmap) mbi
        = get_kernel_memory_map H L mem fuel (some kmap) mbi) := by
  refine ⟨?_, ?_, ?_, ?_⟩
  · intro hne hwf hall fuel hfuel
    rw [get_kernel_memory_map_nomatch H L mem mbi kmap fuel hwf
      (fun j hj hm => hne ((hall j hj hm.1).symm.trans hm.2)) hfuel]
  · intro hex
    obtain ⟨k, hk, hm, hfirst⟩ :=
      exists_first_match H L.__kernel_text_section_start mem mbi hex
    refine ⟨k + 1, fun fuel hfuel => ?_⟩
    rw [get_kernel_memory_map_found H L mem mbi kmap k fuel hlen hk hm hfirst (by omega)]
  · intro L' fuel ht he
    obtain ⟨h1, h2, h3⟩ := scanLoop_congr_kmap H mem mbi fuel 0 (fillSections L' mbi kmap)
      (fillSections L mbi kmap) ht he rfl
    simp only [get_kernel_memory_map, Option.map_some']
    exact ⟨h1, h2, congrArg some h3⟩
  · intro mem' fuel hmem
    simp only [get_kernel_memory_map]
    rw [scanLoop_congr_mem H mem mem' mbi hmem fuel 0 (fillSections L mbi kmap)]

/-- The text start of `symB` differs from its image start. A lone available entry based at
the image start gives -1; the entry based at the text start in scenario A gives 0; the
boundaries `symA` and `symB` share text start and kernel end and give equal results; the
table `memAHigh` differs from `memA` only outside `type`, `addr_low`, `len_low` and gives
the same result. -/
theorem get_kernel_memory_map_matches_text_start_witness :
    (get_kernel_memory_map multibootHeaders symB memB 2 (some zeroMap) mbiShort).ret
      = some (-1) ∧
    (∃ fuel0, ∀ fuel, fuel0 ≤ fuel →
      (get_kernel_memory_map multibootHeaders symB memA fuel (some zeroMap) mbiA).ret
        = some 0) ∧
    ((get_kernel_memory_map multibootHeaders symA memA 3 (some zeroMap) mbiA).examined
        = (get_kernel_memory_map multibootHeaders symB memA 3 (some zeroMap) mbiA).examined ∧
      (get_kernel_memory_map multibootHeaders symA memA 3 (some zeroMap) mbiA).ret
        = (get_kernel_memory_map multibootHeaders symB memA 3 (some zeroMap) mbiA).ret ∧
      (get_kernel_memory_map multibootHeaders symA memA 3 (some zeroMap) mbiA).kmap.map
          (fun km => km.available)
        = (get_kernel_memory_map multibootHeaders symB memA 3 (some zeroMap) mbiA).kmap.map
            (fun km => km.available)) ∧
    get_kernel_memory_map multibootHeaders symB memAHigh 3 (some zeroMap) mbiA
      = get_kernel_memory_map multibootHeaders symB memA 3 (some zeroMap) mbiA :=
  ⟨(get_kernel_memory_map_matches_text_start multibootHeaders symB memB mbiShort zeroMap
      (by decide)).1 (by decide) (by decide) (by decide) 2 (by decide),
    (get_kernel_memory_map_matches_text_start multibootHeaders symB memA mbiA zeroMap
      (by decide)).2.1 ⟨2, by decide, by decide, by decide⟩,
    (get_kernel_memory_map_matches_text_start multibootHeaders symB memA mbiA zeroMap
      (by decide)).2.2.1 symA 3 rfl rfl,
    (get_kernel_memory_map_matches_text_start multibootHeaders symB memA mbiA zeroMap
      (by decide)).2.2.2 memAHigh 3 (by
        intro a
        simp only [memA, memAHigh]
        split_ifs <;> exact ⟨rfl, rfl, rfl⟩)⟩

/-! ## Lemmas on `kmain` -/

theorem scanLoop_ret_cases (H : Headers) (mem : Memory) (mbi : MULTIBOOT_INFO) :
    ∀ (fuel i : Nat) (kmap : KERNEL_MEMORY_MAP),
      (scanLoop H mem mbi fuel i kmap).ret = none ∨
      (scanLoop H mem mbi fuel i kmap).ret = some 0 ∨
      (scanLoop H mem mbi fuel i kmap).ret = some (-1) := by
  intro fuel
  induction fuel with
  | zero => intro i kmap; simp [scanLoop]
  | succ f ih =>
    intro i kmap
    by_cases hi : i < mbi.mmap_length
    · by_cases hm : IsMatch H kmap.kernel.text_start_addr (mem (add32 mbi.mmap_addr i))
      · rw [scanLoop_match H mem mbi f i kmap hi hm]; simp
      · rw [scanLoop_skip H mem mbi f i kmap hi hm]
        exact ih (add32 i (stride H)) kmap
    · rw [scanLoop_exit H mem mbi f i kmap hi]; simp

theorem get_kernel_memory_map_ret_cases (H : Headers) (L : LinkerSymbols) (mem : Memory)
    (mbi : MULTIBOOT_INFO) (fuel : Nat) (kmap : Option KERNEL_MEMORY_MAP) :
    (get_kernel_memory_map H L mem fuel kmap mbi).ret = none ∨
    (get_kernel_memory_map H L mem fuel kmap mbi).ret = some 0 ∨
    (get_kernel_memory_map H L mem fuel kmap mbi).ret = some (-1) := by
  cases kmap with
  | none => simp [get_kernel_memory_map]
  | some k => exact scanLoop_ret_cases H mem mbi fuel 0 (fillSections L mbi k)

theorem drawChars_filter :
    ∀ (n i : Nat) (x y : Int), (drawChars n i x y).filter isAllocatorCall = [] := by
  intro n
  induction n with
  | zero => intro i x y; rfl
  | succ n ih =>
    intro i x y
    unfold drawChars
    split_ifs <;> simp [isAllocatorCall, ih]

theorem drawDemo_filter : drawDemo.filter isAllocatorCall = [] := by
  simp [drawDemo, List.filter_append, drawChars_filter, isAllocatorCall]

theorem scrollLoop_filter (H : Headers) (env : Collaborators) :
    ∀ (fuel n : Nat), (scrollLoop H env fuel n).filter isAllocatorCall = [] := by
  intro fuel
  induction fuel with
  | zero => intro n; rfl
  | succ f ih =>
    intro n
    unfold scrollLoop
    simp only [List.filter_append, ih, List.append_nil]
    split_ifs <;> simp [isAllocatorCall]

theorem replicate_scroll_filter (n : Nat) :
    (List.replicate n (Event.console_scroll .SCROLL_UP)).filter isAllocatorCall = [] := by
  induction n with
  | zero => rfl
  | succ n ih => simp [List.replicate_succ, isAllocatorCall, ih]

theorem bootInit_filter : bootInit.filter isAllocatorCall = [] := by
  simp [bootInit, isAllocatorCall]

/-- The allocator and heap calls of a run of `kmain` whose map build succeeded. -/
theorem kmain_success_calls (H : Headers) (L : LinkerSymbols) (mem : Memory)
    (env : Collaborators) (fuel magic : Nat) (mbi : MULTIBOOT_INFO) (g_kmap : KERNEL_MEMORY_MAP)
    (hmagic : magic = H.MULTIBOOT_BOOTLOADER_MAGIC)
    (hok : (get_kernel_memory_map H L mem fuel (some zeroMap) mbi).ret = some 0) :
    (kmain H L mem env fuel magic mbi g_kmap).g_kmap
      = (get_kernel_memory_map H L mem fuel (some zeroMap) mbi).kmap.getD zeroMap ∧
    (kmain H L mem env fuel magic mbi g_kmap).returned = decide (env.vesa_init ≠ 1) ∧
    (kmain H L mem env fuel magic mbi g_kmap).events.filter isAllocatorCall
      = [ Event.pmm_init (kmain H L mem env fuel magic mbi g_kmap).g_kmap.available.start_addr
            (kmain H L mem env fuel magic mbi g_kmap).g_kmap.available.size,
          Event.pmm_init_region
            (kmain H L mem env fuel magic mbi g_kmap).g_kmap.available.start_addr
            (H.PMM_BLOCK_SIZE * 256),
          Event.pmm_alloc_blocks 256,
          Event.pmm_next_free_frame 1,
          Event.kheap_init env.pmm_alloc_blocks
            (ptrAdd env.pmm_alloc_blocks (env.pmm_next_free_frame * H.PMM_BLOCK_SIZE)) ]
        ++ (if env.vesa_init = 1 then []
            else [ Event.pmm_free_blocks env.pmm_alloc_blocks 256,
                   Event.pmm_deinit_region
                    (kmain H L mem env fuel magic mbi g_kmap).g_kmap.available.start_addr
                    (H.PMM_BLOCK_SIZE * 256) ]) := by
  unfold kmain
  rw [if_pos hmagic]
  simp only [hok]
  have h0 : ¬ ((0 : Int) < 0) := by decide
  rw [if_neg h0]
  by_cases h1 : env.vesa_init < 0
  · have h2 : env.vesa_init ≠ 1 := by omega
    simp [h1, h2, List.filter_append, bootInit_filter, isAllocatorCall]
  · by_cases h2 : env.vesa_init = 1
    · simp [h2, List.filter_append, bootInit_filter, isAllocatorCall,
        replicate_scroll_filter, scrollLoop_filter]
    · simp [h1, h2, List.filter_append, bootInit_filter, isAllocatorCall, drawDemo_filter]

/-! ## C5: no allocator call without a correct magic and a built map -/

/-- C5: with a wrong magic `kmain` makes the four unconditional initialisation calls,
reports the error and returns, leaving `g_kmap` as it was, with no resolver, allocator or
heap call; with a correct magic and a resolver that returns -1 it reports the error and
returns with no allocator or heap call; and whenever the events of `kmain` hold an
allocator or heap call, the magic was correct and the resolver returned 0. -/
theorem kmain_allocator_gate (H : Headers) (L : LinkerSymbols) (mem : Memory)
    (env : Collaborators) (fuel magic : Nat) (mbi : MULTIBOOT_INFO)
    (g_kmap : KERNEL_MEMORY_MAP) :
    (magic ≠ H.MULTIBOOT_BOOTLOADER_MAGIC →
      kmain H L mem env fuel magic mbi g_kmap
        = ⟨[Event.gdt_init, Event.idt_init, Event.console_init .COLOR_WHITE .COLOR_BLACK,
            Event.keyboard_init, Event.printf "error: invalid multiboot magic number\n"],
          g_kmap, true⟩) ∧
    (magic = H.MULTIBOOT_BOOTLOADER_MAGIC →
      (get_kernel_memory_map H L mem fuel (some zeroMap) mbi).ret = some (-1) →
      (kmain H L mem env fuel magic mbi g_kmap).events
        = [Event.gdt_init, Event.idt_init, Event.console_init .COLOR_WHITE .COLOR_BLACK,
            Event.keyboard_init, Event.memset_g_kmap, Event.get_kernel_memory_map,
            Event.printf "error: failed to get kernel memory map\n"] ∧
      (kmain H L mem env fuel magic mbi g_kmap).returned = true) ∧
    (∀ e ∈ (kmain H L mem env fuel magic mbi g_kmap).events, isAllocatorCall e = true →
      magic = H.MULTIBOOT_BOOTLOADER_MAGIC ∧
      (get_kernel_memory_map H L mem fuel (some zeroMap) mbi).ret = some 0) := by
  refine ⟨?_, ?_, ?_⟩
  · intro hne
    unfold kmain
    rw [if_neg hne]
    rfl
  · intro hmagic hfail
    unfold kmain
    rw [if_pos hmagic]
    simp only [hfail]
    have h0 : ((-1 : Int) < 0) := by decide
    rw [if_pos h0]
    exact ⟨rfl, rfl⟩
  · intro e he hcall
    by_cases hmagic : magic = H.MULTIBOOT_BOOTLOADER_MAGIC
    · refine ⟨hmagic, ?_⟩
      rcases get_kernel_memory_map_ret_cases H L mem mbi fuel (some zeroMap) with h | h | h
      · exfalso
        unfold kmain at he
        rw [if_pos hmagic] at he
        simp only [h] at he
        simp [bootInit] at he
        rcases he with rfl | rfl | rfl | rfl | rfl | rfl <;> simp [isAllocatorCall] at hcall
      · exact h
      · exfalso
        unfold kmain at he
        rw [if_pos hmagic] at he
        simp only [h] at he
        have h0 : ((-1 : Int) < 0) := by decide
        rw [if_pos h0] at he
        simp [bootInit] at he
        rcases he with rfl | rfl | rfl | rfl | rfl | rfl | rfl <;>
          simp [isAllocatorCall] at hcall
    · exfalso
      unfold kmain at he
      rw [if_neg hmagic] at he
      simp [bootInit] at he
      rcases he with rfl | rfl | rfl | rfl | rfl <;> simp [isAllocatorCall] at hcall

/-- Scenario B (magic 0) and scenario C under the correct magic: in both runs `kmain`
reports and returns, and the hypotheses of the first two parts of C5 hold. -/
theorem kmain_allocator_gate_witness :
    (0 ≠ multibootHeaders.MULTIBOOT_BOOTLOADER_MAGIC ∧
      kmain multibootHeaders symA memA envShortGrant 3 0 mbiA zeroMap
        = ⟨[Event.gdt_init, Event.idt_init, Event.console_init .COLOR_WHITE .COLOR_BLACK,
            Event.keyboard_init, Event.printf "error: invalid multiboot magic number\n"],
          zeroMap, true⟩) ∧
    ((get_kernel_memory_map multibootHeaders symA memC 4 (some zeroMap) mbiC).ret
        = some (-1) ∧
      (kmain multibootHeaders symA memC envShortGrant 4 0x2BADB002 mbiC zeroMap).events
        = [Event.gdt_init, Event.idt_init, Event.console_init .COLOR_WHITE .COLOR_BLACK,
            Event.keyboard_init, Event.memset_g_kmap, Event.get_kernel_memory_map,
            Event.printf "error: failed to get kernel memory map\n"] ∧
      (kmain multibootHeaders symA memC envShortGrant 4 0x2BADB002 mbiC zeroMap).returned
        = true) :=
  ⟨⟨by decide,
      (kmain_allocator_gate multibootHeaders symA memA envShortGrant 3 0 mbiA zeroMap).1
        (by decide)⟩,
    ⟨by decide,
      (kmain_allocator_gate multibootHeaders symA memC envShortGrant 4 0x2BADB002 mbiC
        zeroMap).2.1 rfl (by decide)⟩⟩

/-! ## C6: the order of the allocator calls and the teardown -/

/-- C6: after a successful map build `kmain` returns exactly when `vesa_init` returned a
value other than 1, in particular when it returned a negative value; on every such run the
allocator and heap calls are, in order, `pmm_init(start_addr, size)`,
`pmm_init_region(start_addr, 256 blocks)`, `pmm_alloc_blocks(256)`, `pmm_next_free_frame(1)`,
`kheap_init(start, end)`, `pmm_free_blocks(start, 256)` and
`pmm_deinit_region(start_addr, 256 blocks)`, and nothing else. -/
theorem kmain_allocator_sequence (H : Headers) (L : LinkerSymbols) (mem : Memory)
    (env : Collaborators) (fuel magic : Nat) (mbi : MULTIBOOT_INFO) (g_kmap : KERNEL_MEMORY_MAP)
    (hmagic : magic = H.MULTIBOOT_BOOTLOADER_MAGIC)
    (hok : (get_kernel_memory_map H L mem fuel (some zeroMap) mbi).ret = some 0) :
    ∃ g, (get_kernel_memory_map H L mem fuel (some zeroMap) mbi).kmap = some g ∧
      (kmain H L mem env fuel magic mbi g_kmap).g_kmap = g ∧
      ((kmain H L mem env fuel magic mbi g_kmap).returned = true ↔ env.vesa_init ≠ 1) ∧
      (env.vesa_init < 0 → (kmain H L mem env fuel magic mbi g_kmap).returned = true) ∧
      ((kmain H L mem env fuel magic mbi g_kmap).returned = true →
        (kmain H L mem env fuel magic mbi g_kmap).events.filter isAllocatorCall
          = [ Event.pmm_init g.available.start_addr g.available.size,
              Event.pmm_init_region g.available.start_addr (H.PMM_BLOCK_SIZE * 256),
              Event.pmm_alloc_blocks 256,
              Event.pmm_next_free_frame 1,
              Event.kheap_init env.pmm_alloc_blocks
                (ptrAdd env.pmm_alloc_blocks (env.pmm_next_free_frame * H.PMM_BLOCK_SIZE)),
              Event.pmm_free_blocks env.pmm_alloc_blocks 256,
              Event.pmm_deinit_region g.available.start_addr (H.PMM_BLOCK_SIZE * 256) ]) := by
  obtain ⟨hg, hret, hcalls⟩ := kmain_success_calls H L mem env fuel magic mbi g_kmap hmagic hok
  have hsome : (get_kernel_memory_map H L mem fuel (some zeroMap) mbi).kmap
      = some ((get_kernel_memory_map H L mem fuel (some zeroMap) mbi).kmap.getD zeroMap) := rfl
  refine ⟨_, hsome, hg, ?_, ?_, ?_⟩
  · rw [hret]; simp
  · intro hneg
    rw [hret]
    have : env.vesa_init ≠ 1 := by omega
    simp [this]
  · intro hreturned
    rw [hret] at hreturned
    have hne : env.vesa_init ≠ 1 := by simpa using hreturned
    rw [hcalls, if_neg hne, hg]
    rfl

/-- Scenario A with a failing graphics stage: the run returns after the five setup calls
and the two teardown calls. -/
theorem kmain_allocator_sequence_witness :
    (kmain multibootHeaders symA memA envShortGrant 3 0x2BADB002 mbiA zeroMap).returned = true ∧
    (kmain multibootHeaders symA memA envShortGrant 3 0x2BADB002 mbiA zeroMap).events.filter
        isAllocatorCall
      = [ Event.pmm_init 0x208000 0x1CF8000,
          Event.pmm_init_region 0x208000 0x100000,
          Event.pmm_alloc_blocks 256,
          Event.pmm_next_free_frame 1,
          Event.kheap_init 0x208000 0x209000,
          Event.pmm_free_blocks 0x208000 256,
          Event.pmm_deinit_region 0x208000 0x100000 ] := by
  obtain ⟨g, hg, _, _, hneg, hseq⟩ :=
    kmain_allocator_sequence multibootHeaders symA memA envShortGrant 3 0x2BADB002 mbiA zeroMap
      rfl (by decide)
  have hret := hneg (by decide)
  refine ⟨hret, ?_⟩
  rw [hseq hret]
  have hg' : g = ⟨(fillSections symA mbiA zeroMap).kernel, (fillSections symA mbiA zeroMap).system,
      ⟨0x208000, 0x1F00000, 0x1CF8000⟩⟩ := by
    have : (get_kernel_memory_map multibootHeaders symA memA 3 (some zeroMap) mbiA).kmap
        = some ⟨(fillSections symA mbiA zeroMap).kernel, (fillSections symA mbiA zeroMap).system,
            ⟨0x208000, 0x1F00000, 0x1CF8000⟩⟩ := by decide
    rw [this] at hg
    exact (Option.some.inj hg).symm
  subst hg'
  decide

/-! ## C7: the heap extent passed to `kheap_init` -/

theorem ptrAdd_nonneg (p m : Nat) : ptrAdd p (m : Int) = (p + m) % 4294967296 := by
  unfold ptrAdd
  omega

/-- C7, as stated, fails: in scenario A, when `pmm_alloc_blocks(256)` returns the window
start `0x208000` and `pmm_next_free_frame(1)` returns 257, the heap end passed to
`kheap_init` is `0x309000`, above `available.start_addr + 256 * PMM_BLOCK_SIZE = 0x308000`;
when `pmm_next_free_frame(1)` returns the sentinel -1, the heap end is `0x207000`, below the
heap start `0x208000`. -/
theorem kmain_heap_end_counterexample :
    (kmain multibootHeaders symA memA envOver 3 0x2BADB002 mbiA zeroMap).g_kmap.available.start_addr
      = 0x208000 ∧
    Event.kheap_init 0x208000 0x309000
      ∈ (kmain multibootHeaders symA memA envOver 3 0x2BADB002 mbiA zeroMap).events ∧
    ¬ (0x309000 ≤
      (kmain multibootHeaders symA memA envOver 3 0x2BADB002 mbiA zeroMap).g_kmap.available.start_addr
        + 256 * multibootHeaders.PMM_BLOCK_SIZE) ∧
    Event.kheap_init 0x208000 0x207000
      ∈ (kmain multibootHeaders symA memA envSentinel 3 0x2BADB002 mbiA zeroMap).events ∧
    ¬ (0x208000 ≤ 0x207000) := by
  decide

/-- C7, amended: after a successful map build, for every behaviour of the allocator, the
`kheap_init` calls of `kmain` are exactly the one call whose start `s` is the value returned
by `pmm_alloc_blocks(256)` and whose end is `s + f * PMM_BLOCK_SIZE` in 32-bit pointer
arithmetic, `f` being the value returned by `pmm_next_free_frame(1)`; nothing clamps it.
For `f ≥ 0` the end does not exceed `available.start_addr + 256 * PMM_BLOCK_SIZE` when
`s + f * PMM_BLOCK_SIZE` does not, and it is not below `s` when `s + f * PMM_BLOCK_SIZE`
fits in 32 bits. -/
theorem kmain_heap_extent (H : Headers) (L : LinkerSymbols) (mem : Memory)
    (env : Collaborators) (fuel magic : Nat) (mbi : MULTIBOOT_INFO) (g_kmap : KERNEL_MEMORY_MAP)
    (hmagic : magic = H.MULTIBOOT_BOOTLOADER_MAGIC)
    (hok : (get_kernel_memory_map H L mem fuel (some zeroMap) mbi).ret = some 0) :
    (∀ s e, Event.kheap_init s e ∈ (kmain H L mem env fuel magic mbi g_kmap).events ↔
      (s = env.pmm_alloc_blocks ∧
        e = ptrAdd env.pmm_alloc_blocks (env.pmm_next_free_frame * H.PMM_BLOCK_SIZE))) ∧
    (0 ≤ env.pmm_next_free_frame →
      (env.pmm_alloc_blocks + env.pmm_next_free_frame.toNat * H.PMM_BLOCK_SIZE
          ≤ (kmain H L mem env fuel magic mbi g_kmap).g_kmap.available.start_addr
            + 256 * H.PMM_BLOCK_SIZE →
        ptrAdd env.pmm_alloc_blocks (env.pmm_next_free_frame * H.PMM_BLOCK_SIZE)
          ≤ (kmain H L mem env fuel magic mbi g_kmap).g_kmap.available.start_addr
            + 256 * H.PMM_BLOCK_SIZE) ∧
      (env.pmm_alloc_blocks + env.pmm_next_free_frame.toNat * H.PMM_BLOCK_SIZE < 4294967296 →
        env.pmm_alloc_blocks
          ≤ ptrAdd env.pmm_alloc_blocks (env.pmm_next_free_frame * H.PMM_BLOCK_SIZE))) := by
  obtain ⟨_, _, hcalls⟩ := kmain_success_calls H L mem env fuel magic mbi g_kmap hmagic hok
  constructor
  · intro s e
    have hmem : Event.kheap_init s e ∈ (kmain H L mem env fuel magic mbi g_kmap).events ↔
        Event.kheap_init s e
          ∈ (kmain H L mem env fuel magic mbi g_kmap).events.filter isAllocatorCall := by
      rw [List.mem_filter]
      exact ⟨fun h => ⟨h, rfl⟩, fun h => h.1⟩
    rw [hmem, hcalls]
    by_cases h1 : env.vesa_init = 1
    · simp [h1]
    · simp [h1]
  · intro hf
    obtain ⟨n, hn⟩ := Int.eq_ofNat_of_zero_le hf
    have hprod : env.pmm_next_free_frame * (H.PMM_BLOCK_SIZE : Int)
        = ((n * H.PMM_BLOCK_SIZE : Nat) : Int) := by
      rw [hn]; push_cast; rfl
    have htn : env.pmm_next_free_frame.toNat = n := by rw [hn]; rfl
    rw [hprod, ptrAdd_nonneg, htn]
    constructor
    · intro hle
      exact le_trans (Nat.mod_le _ _) hle
    · intro h32
      rw [Nat.mod_eq_of_lt h32]
      exact Nat.le_add_right _ _

/-- Scenario A with a short grant of one block: the hypotheses of the amended C7 hold, the
heap handed to `kheap_init` is `[0x208000, 0x209000)`, and it lies inside the requested
region, which ends at `0x308000`. -/
theorem kmain_heap_extent_witness :
    (∀ s e, Event.kheap_init s e
        ∈ (kmain multibootHeaders symA memA envShortGrant 3 0x2BADB002 mbiA zeroMap).events ↔
      (s = 0x208000 ∧ e = 0x209000)) ∧
    (ptrAdd envShortGrant.pmm_alloc_blocks
        (envShortGrant.pmm_next_free_frame * multibootHeaders.PMM_BLOCK_SIZE)
      ≤ (kmain multibootHeaders symA memA envShortGrant 3 0x2BADB002 mbiA
          zeroMap).g_kmap.available.start_addr + 256 * multibootHeaders.PMM_BLOCK_SIZE) ∧
    (envShortGrant.pmm_alloc_blocks
      ≤ ptrAdd envShortGrant.pmm_alloc_blocks
        (envShortGrant.pmm_next_free_frame * multibootHeaders.PMM_BLOCK_SIZE)) :=
  ⟨(kmain_heap_extent multibootHeaders symA memA envShortGrant 3 0x2BADB002 mbiA zeroMap rfl
      (by decide)).1,
    ((kmain_heap_extent multibootHeaders symA memA envShortGrant 3 0x2BADB002 mbiA zeroMap rfl
      (by decide)).2 (by decide)).1 (by decide),
    ((kmain_heap_extent multibootHeaders symA memA envShortGrant 3 0x2BADB002 mbiA zeroMap rfl
      (by decide)).2 (by decide)).2 (by decide)⟩

end Kernel
